import Mathlib

/-!
Shallow embedding of the `overloadable` procedural-invocation crate
(`src/lib.rs`): a token model for Rust token trees, the data model the
crate parses into (`ThisDef`, `ParsedFnDef`, headers), the two code
generators (`gen_fn_decls` for free functions, `gen_trait_fn_decls` for
members), and the token-level parsers the crate builds from `syn`
combinators.  Generated code is modelled structurally: each `quote!`
template becomes a record whose fields are the holes of the template.
-/

namespace Overload

/-- Source spans of `proc_macro2`, abstracted as numeric identifiers.
Only identity of spans matters to the embedding. -/
abbrev Span := Nat

/-- Delimiters of a Rust token group. -/
inductive Delim
| paren
| bracket
| brace
deriving DecidableEq, Repr

/-- Rust token trees as handed to a procedural invocation.  Keywords are
identifier tokens (as in `proc_macro2`); a jointly-spaced punctuation
sequence such as `::` or `->` is modelled as one `punct` token; a
lifetime `'a` is modelled as one `lifetime` token carrying the name
without the quote. -/
inductive Tok
| ident (s : String) (sp : Span)
| lifetime (s : String) (sp : Span)
| lit (s : String) (sp : Span)
| punct (s : String) (sp : Span)
| group (d : Delim) (ts : List Tok) (sp : Span)
deriving Repr

/-- An identifier with its span (`proc_macro2::Ident`). -/
structure Ident where
  name : String
  sp : Span
deriving DecidableEq, Repr

/-- The fragment of `syn::Type` the crate's inputs exercise: path types
with optional generic arguments, references, tuples (recording the span
of their parentheses, which `gen_fn_decls`/`gen_trait_fn_decls` reuse
when defaulting a missing return type), slices, arrays, and bare
lifetime arguments inside `<...>`. -/
inductive Ty
| path (segs : List String) (args : List Ty) (sp : Span)
| ref (lt : Option String) (mutable : Bool) (inner : Ty) (sp : Span)
| tuple (paren : Span) (elems : List Ty)
| slice (inner : Ty) (sp : Span)
| array (inner : Ty) (len : List Tok) (sp : Span)
| lifetimeArg (s : String) (sp : Span)
deriving Repr

/-- The fragment of `syn::Pat` the crate's inputs exercise: identifier
patterns, the wildcard `_`, and tuple patterns. -/
inductive Pat
| ident (s : String) (sp : Span)
| wild (sp : Span)
| tuple (sp : Span) (elems : List Pat)
deriving Repr

/-- The span of a pattern (`syn::spanned::Spanned` on `Pat`). -/
def Pat.span : Pat → Span
| .ident _ sp => sp
| .wild sp => sp
| .tuple sp _ => sp

/-- A bound appearing after `:` in a generic parameter or where
predicate: a trait path or a lifetime. -/
inductive Bound
| traitBound (t : Ty)
| lifetimeBound (s : String) (sp : Span)
deriving Repr

/-- One generic parameter of `syn::Generics`. -/
inductive GenericParam
| lifetimeParam (s : String) (bounds : List (String × Span)) (sp : Span)
| typeParam (s : String) (bounds : List Bound) (sp : Span)
deriving Repr

/-- Model of `syn::Generics` (the `<...>` parameter list). -/
structure Generics where
  params : List GenericParam
deriving Repr

/-- One `syn::WherePredicate` of the type-predicate form, or a lifetime
predicate. -/
inductive WherePred
| typePred (lhs : Ty) (bounds : List Bound)
| lifetimePred (s : String) (bounds : List (String × Span)) (sp : Span)
deriving Repr

/-- Model of `syn::WhereClause`. -/
structure WhereClause where
  preds : List WherePred
deriving Repr

/-- Model of `syn::ReturnType`: either no arrow (`Default`) or `-> Type`. -/
inductive ReturnType
| default
| ty (arrow : Span) (t : Ty)
deriving Repr

/-- Model of `syn::Block`, kept opaque: the brace span and the raw tokens of the
body, which the crate never inspects and re-emits verbatim. -/
structure Block where
  sp : Span
  toks : List Tok
deriving Repr

/-- Model of `ThisDef` from `src/lib.rs`: the receiver descriptor.  `explicit`
is `(Option<Token![mut]>, Token![self], Token![:], Type,
Option<Token![,]>)`; `implicit` is `(Option<Token![&]>,
Option<Token![mut]>, Token![self], Option<Token![,]>)`.  Token fields
are modelled by their spans. -/
inductive ThisDef
| explicit (mutTok : Option Span) (selfTok : Span) (colon : Span)
    (ty : Ty) (comma : Option Span)
| implicit (andTok : Option Span) (mutTok : Option Span) (selfTok : Span)
    (comma : Option Span)
deriving Repr

/-- Model of `ThisDef::is_sized_dependent` from `src/lib.rs`: true exactly on
`Some(ThisDef::Implicit(None, ..))`. -/
def ThisDef.is_sized_dependent : Option ThisDef → Bool
| some (.implicit none _ _ _) => true
| _ => false

/-- Model of `ParsedFnDef` from `src/lib.rs`.  `meta` keeps each meta item as its
raw bracketed token content paired with the bracket span (the crate
parses a `syn::Meta` from that content and re-emits it verbatim, so the
content stays opaque here); `params` is the punctuated list of
`(Pat, Token![:], Type)` triples. -/
structure ParsedFnDef where
  meta : List (List Tok × Span)
  gen : Option Generics
  paren : Span
  this : Option ThisDef
  params : List (Pat × Span × Ty)
  ret : ReturnType
  w_clause : Option WhereClause
  code : Block
deriving Repr

/-- Model of `syn::Visibility` restricted to the shapes the crate meets:
inherited (nothing), `pub`, or `pub(...)` with raw restriction tokens. -/
inductive Visibility
| inherited
| pub (sp : Span)
| restricted (sp : Span) (inner : List Tok)
deriving Repr

/-- The decimal digit list of a natural number, most significant first:
models the `Display` rendering of a `usize` interpolated by `format!`. -/
def decDigits (n : Nat) : List Char :=
  if _h : n < 10 then [Nat.digitChar n]
  else decDigits (n / 10) ++ [Nat.digitChar (n % 10)]
decreasing_by exact Nat.div_lt_self (by omega) (by omega)

/-- Decimal string of a natural number, as `format!("{}", n)` renders a
`usize`. -/
def fmtNat (n : Nat) : String := ⟨decDigits n⟩

/-- A compile error (`syn::Error`): message and the span it is anchored
at. -/
abbrev GenError := String × Span

/-- The three implemented traits of the invocation protocol. -/
inductive FnTraitKind
| fnTrait
| fnOnceTrait
| fnMutTrait
deriving DecidableEq, Repr

/-- An attribute as re-emitted by
`quote_spanned!(b.span => #[#m])`: the meta content and the original
bracket span it is spanned at. -/
structure EmittedAttr where
  content : List Tok
  sp : Span
deriving Repr

/-- The body of a generated protocol method: the user's block (for
`call`) or the delegation `self.call(x)` (for `call_once` and
`call_mut`). -/
inductive MethodBody
| userBlock (b : Block)
| delegateToCall
deriving Repr

/-- One `impl ... for #name` block emitted by `gen_fn_decls`, with one
field per hole of the corresponding `quote!` template: the implemented
trait, the signature's generics, the argument tuple's component types
`(#(#pty,)*)`, the marker-type name, the signature's where clause, the
`type Output = #ret` associated type (present only on the `FnOnce`
block), the re-emitted attributes, the pattern binding the method's
tuple argument, and the method body. -/
structure FnImpl where
  kind : FnTraitKind
  gen : Option Generics
  argTypes : List Ty
  forName : Ident
  w_clause : Option WhereClause
  output : Option Ty
  meta : List EmittedAttr
  methodArgPat : Pat
  body : MethodBody
deriving Repr

/-- The body of the closure mapped over the signatures in
`gen_fn_decls`: reject any signature with a receiver descriptor, default
a missing return type to the empty tuple spanned at the parameter
parentheses, collect parameter types and patterns in order, and emit the
`Fn`, `FnOnce`, `FnMut` blocks. -/
def genOneFnDecl (name : Ident) (f : ParsedFnDef) :
    Except GenError (List FnImpl) :=
  if f.this.isSome then
    .error ("This declaration cannot contain a `self`-style parameter.", f.paren)
  else
    let ret : Ty := match f.ret with
      | .ty _ t => t
      | .default => Ty.tuple f.paren []
    let pty : List Ty := f.params.map fun p => p.2.2
    let ppt : List Pat := f.params.map fun p => p.1
    let meta : List EmittedAttr := f.meta.map fun mb => ⟨mb.1, mb.2⟩
    .ok
      [ { kind := .fnTrait, gen := f.gen, argTypes := pty, forName := name,
          w_clause := f.w_clause, output := none, meta := meta,
          methodArgPat := Pat.tuple 0 ppt, body := .userBlock f.code },
        { kind := .fnOnceTrait, gen := f.gen, argTypes := pty, forName := name,
          w_clause := f.w_clause, output := some ret, meta := meta,
          methodArgPat := Pat.ident "x" 0, body := .delegateToCall },
        { kind := .fnMutTrait, gen := f.gen, argTypes := pty, forName := name,
          w_clause := f.w_clause, output := none, meta := meta,
          methodArgPat := Pat.ident "x" 0, body := .delegateToCall } ]

/-- Model of `gen_fn_decls` from `src/lib.rs`: map the per-signature closure over
the signatures and concatenate, short-circuiting at the first error as
`collect::<Result<Vec<_>>>` does. -/
def gen_fn_decls : List ParsedFnDef → Ident → Except GenError (List FnImpl)
| [], _ => .ok []
| f :: rest, name =>
  match genOneFnDecl name f with
  | .error e => .error e
  | .ok head =>
    match gen_fn_decls rest name with
    | .error e => .error e
    | .ok tail => .ok (head ++ tail)

/-- The single-method trait declaration emitted per signature by
`gen_trait_fn_decls`:
`#vis trait #trait_name: #sized_requirement { fn #name#gen(#this#(#trait_params),*) -> #ret #w_clause; }`. -/
structure TraitDecl where
  vis : Visibility
  traitName : Ident
  sizedRequirement : Bool
  methodName : Ident
  gen : Option Generics
  this : Option ThisDef
  params : List (Pat × Ty)
  ret : Ty
  w_clause : Option WhereClause
deriving Repr

/-- The trait implementation emitted per signature by
`gen_trait_fn_decls`:
`impl #trait_name for #struct_name { #(#meta)* fn #name#gen(#this#(#impl_params),*) -> #ret #w_clause { #code } }`. -/
structure TraitImplBlock where
  traitName : Ident
  structName : Ident
  meta : List EmittedAttr
  methodName : Ident
  gen : Option Generics
  this : Option ThisDef
  params : List (Pat × Ty)
  ret : Ty
  w_clause : Option WhereClause
  code : Block
deriving Repr

/-- The body of the closure mapped (with `enumerate`) over the
signatures in `gen_trait_fn_decls`: default the return type, build the
positional trait parameters `_{index}` (spanned at the user pattern) and
the implementation parameters (user patterns), derive the trait name
`format!("{}Trait{}", struct_name, index)` spanned at the owner name,
and set the `Sized` requirement from `ThisDef::is_sized_dependent`. -/
def genOneTraitDecl (name struct_name : Ident) (vis : Visibility)
    (index : Nat) (f : ParsedFnDef) : TraitDecl × TraitImplBlock :=
  let ret : Ty := match f.ret with
    | .ty _ t => t
    | .default => Ty.tuple f.paren []
  let trait_params : List (Pat × Ty) :=
    f.params.enum.map fun kp =>
      (Pat.ident ("_" ++ fmtNat kp.1) kp.2.1.span, kp.2.2.2)
  let impl_params : List (Pat × Ty) := f.params.map fun p => (p.1, p.2.2)
  let meta : List EmittedAttr := f.meta.map fun mb => ⟨mb.1, mb.2⟩
  let trait_name : Ident :=
    ⟨struct_name.name ++ "Trait" ++ fmtNat index, struct_name.sp⟩
  let sized : Bool := ThisDef.is_sized_dependent f.this
  (⟨vis, trait_name, sized, name, f.gen, f.this, trait_params, ret, f.w_clause⟩,
   ⟨trait_name, struct_name, meta, name, f.gen, f.this, impl_params, ret,
    f.w_clause, f.code⟩)

/-- Model of `gen_trait_fn_decls` from `src/lib.rs`.  The source wraps each item
in `Ok` and collects a `Result` that is never `Err`, so the embedding
returns the list directly. -/
def gen_trait_fn_decls (fns : List ParsedFnDef) (name struct_name : Ident)
    (vis : Visibility) : List (TraitDecl × TraitImplBlock) :=
  fns.enum.map fun idxf => genOneTraitDecl name struct_name vis idxf.1 idxf.2

/-- Semantics of a generated protocol method body, given an
interpretation of user blocks as functions and the block installed on
the `Fn::call` method: `self.call(x)` evaluates the `call` block. -/
def MethodBody.denote {α β : Type} (interp : Block → α → β)
    (callBlock : Block) : MethodBody → α → β
| .userBlock b => interp b
| .delegateToCall => interp callBlock

/-- The span of a token tree. -/
def Tok.span : Tok → Span
| .ident _ sp => sp
| .lifetime _ sp => sp
| .lit _ sp => sp
| .punct _ sp => sp
| .group _ _ sp => sp

/-- Span of the first token of a stream (`0` at end of input, where
`syn` anchors at the call site). -/
def headSpan : List Tok → Span
| [] => 0
| t :: _ => t.span

/-- Is this token the punctuation `s`? -/
def Tok.isPunctTok (s : String) : Tok → Bool
| .punct p _ => p == s
| _ => false

/-- Is this token the identifier (or keyword) `s`? -/
def Tok.isIdentTok (s : String) : Tok → Bool
| .ident i _ => i == s
| _ => false

/-- Look at the token `n` positions ahead (`n = 0` is `peek`, `n = 1`
is `peek2`, `n = 2` is `peek3`). -/
def peekAt (ts : List Tok) (n : Nat) (p : Tok → Bool) : Bool :=
  match ts.drop n with
  | t :: _ => p t
  | [] => false

/-- Rust keywords, which `syn`'s `Ident` parser rejects. -/
def rustKeywords : List String :=
  ["as", "break", "const", "continue", "crate", "dyn", "else", "enum",
   "extern", "false", "fn", "for", "if", "impl", "in", "let", "loop",
   "match", "mod", "move", "mut", "pub", "ref", "return", "self", "Self",
   "static", "struct", "super", "trait", "true", "type", "unsafe", "use",
   "where", "while"]

/-- Parse outcome over a token stream.  Both outcomes carry the stream
position where parsing stopped, because a `syn` parse stream stays
advanced even when a sub-parse fails (the crate relies on this at the
`params_content.parse::<ThisDef>().ok()` call). -/
inductive PRes (α : Type)
| ok (a : α) (rest : List Tok)
| err (msg : String) (sp : Span) (rest : List Tok)
deriving Repr

/-- Sequence two parse steps, propagating errors. -/
def PRes.andThen {α β : Type} (r : PRes α)
    (k : α → List Tok → PRes β) : PRes β :=
  match r with
  | .ok a rest => k a rest
  | .err m s r => .err m s r

/-- Model of `input.parse::<Ident>()`: a non-keyword identifier token. -/
def parseIdent (ts : List Tok) : PRes Ident :=
  match ts with
  | .ident s sp :: rest =>
    if rustKeywords.contains s then .err "expected identifier" sp ts
    else .ok ⟨s, sp⟩ rest
  | t :: _ => .err "expected identifier" t.span ts
  | [] => .err "expected identifier" 0 []

/-- Model of `input.parse::<Token![kw]>()` for a keyword `kw`. -/
def parseKw (s : String) (ts : List Tok) : PRes Span :=
  match ts with
  | .ident i sp :: rest =>
    if i == s then .ok sp rest else .err ("expected keyword " ++ s) sp ts
  | t :: _ => .err ("expected keyword " ++ s) t.span ts
  | [] => .err ("expected keyword " ++ s) 0 []

/-- Model of `input.parse::<Token![p]>()` for a punctuation `p`. -/
def parsePunct (s : String) (ts : List Tok) : PRes Span :=
  match ts with
  | .punct p sp :: rest =>
    if p == s then .ok sp rest else .err ("expected token " ++ s) sp ts
  | t :: _ => .err ("expected token " ++ s) t.span ts
  | [] => .err ("expected token " ++ s) 0 []

/-- Model of `input.parse::<Option<Token![p]>>()`: consume the punctuation if
present, never fail. -/
def parseOptPunct (s : String) (ts : List Tok) : Option Span × List Tok :=
  match ts with
  | .punct p sp :: rest => if p == s then (some sp, rest) else (none, ts)
  | _ => (none, ts)

/-- Model of `input.parse::<Option<Token![kw]>>()` for a keyword. -/
def parseOptKw (s : String) (ts : List Tok) : Option Span × List Tok :=
  match ts with
  | .ident i sp :: rest => if i == s then (some sp, rest) else (none, ts)
  | _ => (none, ts)

/-- Consume an optional lifetime token. -/
def parseOptLifetime (ts : List Tok) : Option String × List Tok :=
  match ts with
  | .lifetime s _ :: rest => (some s, rest)
  | _ => (none, ts)

mutual

/-- Model of `input.parse::<Type>()` (the `syn::Type` grammar restricted to the
shapes this crate's inputs use), fuel-bounded. -/
def parseTy : Nat → List Tok → PRes Ty
| 0, ts => .err "parser fuel exhausted" (headSpan ts) ts
| fuel + 1, ts =>
  match ts with
  | .punct "&" sp :: rest =>
    let (lt, rest₁) := parseOptLifetime rest
    let (mt, rest₂) := parseOptKw "mut" rest₁
    (parseTy fuel rest₂).andThen fun inner rest₃ =>
      .ok (.ref lt mt.isSome inner sp) rest₃
  | .group .paren inner gsp :: rest =>
    (parseTyGroupContent fuel inner).andThen fun elems _ =>
      match elems with
      | ([t], false) => .ok t rest
      | (tys, _) => .ok (.tuple gsp tys) rest
  | .group .bracket inner gsp :: rest =>
    (parseTy fuel inner).andThen fun t innerRest =>
      match innerRest with
      | [] => .ok (.slice t gsp) rest
      | .punct ";" _ :: len => .ok (.array t len gsp) rest
      | tok :: _ => .err "unexpected token in brackets" tok.span innerRest
  | .ident s sp :: rest =>
    if rustKeywords.contains s && s != "Self" then .err "expected type" sp ts
    else parseTyPath fuel [s] sp rest
  | t :: _ => .err "expected type" t.span ts
  | [] => .err "expected type" 0 []

/-- The comma-separated types filling a parenthesized group, with a
flag recording whether a trailing comma was present (which decides
parenthesized-type versus one-element tuple). -/
def parseTyGroupContent : Nat → List Tok → PRes (List Ty × Bool)
| 0, ts => .err "parser fuel exhausted" (headSpan ts) ts
| fuel + 1, ts =>
  match ts with
  | [] => .ok ([], false) []
  | _ =>
    (parseTy fuel ts).andThen fun t rest =>
      match rest with
      | [] => .ok ([t], false) []
      | .punct "," _ :: rest₁ =>
        if rest₁.isEmpty then .ok ([t], true) []
        else
          (parseTyGroupContent fuel rest₁).andThen fun tysTr r =>
            .ok (t :: tysTr.1, tysTr.2) r
      | tok :: _ => .err "expected comma" tok.span rest

/-- Trailing path segments `:: seg` and an optional generic argument
list `<...>` after the first segment of a path type. -/
def parseTyPath : Nat → List String → Span → List Tok → PRes Ty
| 0, _, _, ts => .err "parser fuel exhausted" (headSpan ts) ts
| fuel + 1, segs, sp, ts =>
  match ts with
  | .punct "::" _ :: .ident s₂ _ :: rest => parseTyPath fuel (segs ++ [s₂]) sp rest
  | .punct "<" _ :: rest =>
    (parseGenericArgs fuel rest).andThen fun args rest₁ =>
      .ok (.path segs args sp) rest₁
  | _ => .ok (.path segs [] sp) ts

/-- Comma-separated generic arguments up to and including the closing
`>`. -/
def parseGenericArgs : Nat → List Tok → PRes (List Ty)
| 0, ts => .err "parser fuel exhausted" (headSpan ts) ts
| fuel + 1, ts =>
  match ts with
  | .punct ">" _ :: rest => .ok [] rest
  | .lifetime s sp :: rest =>
    parseGenericArgsTail fuel (Ty.lifetimeArg s sp) rest
  | _ =>
    (parseTy fuel ts).andThen fun t rest =>
      parseGenericArgsTail fuel t rest

/-- After one generic argument: a comma continues the list, otherwise
the closing `>` must follow. -/
def parseGenericArgsTail : Nat → Ty → List Tok → PRes (List Ty)
| 0, _, ts => .err "parser fuel exhausted" (headSpan ts) ts
| fuel + 1, t, ts =>
  match ts with
  | .punct "," _ :: rest =>
    (parseGenericArgs fuel rest).andThen fun args rest₁ =>
      .ok (t :: args) rest₁
  | .punct ">" _ :: rest => .ok [t] rest
  | tok :: _ => .err "expected closing angle bracket" tok.span ts
  | [] => .err "expected closing angle bracket" 0 []

end

mutual

/-- Model of `input.parse::<Pat>()` (the `syn::Pat` grammar restricted to the
shapes this crate's inputs use: identifiers, `_`, tuple patterns),
fuel-bounded. -/
def parsePat : Nat → List Tok → PRes Pat
| 0, ts => .err "parser fuel exhausted" (headSpan ts) ts
| fuel + 1, ts =>
  match ts with
  | .ident "_" sp :: rest => .ok (.wild sp) rest
  | .ident s sp :: rest =>
    if rustKeywords.contains s then .err "expected pattern" sp ts
    else .ok (.ident s sp) rest
  | .group .paren inner gsp :: rest =>
    (parsePatGroupContent fuel inner).andThen fun elems _ =>
      match elems with
      | ([p], false) => .ok p rest
      | (pats, _) => .ok (.tuple gsp pats) rest
  | t :: _ => .err "expected pattern" t.span ts
  | [] => .err "expected pattern" 0 []

/-- The comma-separated patterns filling a parenthesized group, with a
trailing-comma flag. -/
def parsePatGroupContent : Nat → List Tok → PRes (List Pat × Bool)
| 0, ts => .err "parser fuel exhausted" (headSpan ts) ts
| fuel + 1, ts =>
  match ts with
  | [] => .ok ([], false) []
  | _ =>
    (parsePat fuel ts).andThen fun p rest =>
      match rest with
      | [] => .ok ([p], false) []
      | .punct "," _ :: rest₁ =>
        if rest₁.isEmpty then .ok ([p], true) []
        else
          (parsePatGroupContent fuel rest₁).andThen fun patsTr r =>
            .ok (p :: patsTr.1, patsTr.2) r
      | tok :: _ => .err "expected comma" tok.span rest

end

/-- Model of `ThisDef::parse` from `src/lib.rs`: the three-token lookahead
deciding explicit-typed receiver versus implicit receiver versus
failure, then the field-by-field parses of the chosen route. -/
def parseThisDef (fuel : Nat) (ts : List Tok) : PRes ThisDef :=
  if (peekAt ts 1 (Tok.isPunctTok ":") || peekAt ts 2 (Tok.isPunctTok ":")) &&
     (peekAt ts 0 (Tok.isIdentTok "self") || peekAt ts 1 (Tok.isIdentTok "self")) then
    let (mt, ts₁) := parseOptKw "mut" ts
    (parseKw "self" ts₁).andThen fun selfSp ts₂ =>
      (parsePunct ":" ts₂).andThen fun colonSp ts₃ =>
        (parseTy fuel ts₃).andThen fun ty ts₄ =>
          let (c, ts₅) := parseOptPunct "," ts₄
          .ok (.explicit mt selfSp colonSp ty c) ts₅
  else if peekAt ts 0 (Tok.isIdentTok "self") || peekAt ts 1 (Tok.isIdentTok "self") ||
          peekAt ts 2 (Tok.isIdentTok "self") then
    let (amp, ts₁) := parseOptPunct "&" ts
    let (mt, ts₂) := parseOptKw "mut" ts₁
    (parseKw "self" ts₂).andThen fun selfSp ts₃ =>
      let (c, ts₄) := parseOptPunct "," ts₃
      .ok (.implicit amp mt selfSp c) ts₄
  else .err "Could not find self type!" (headSpan ts) ts

/-- Model of `parse_pattern_type_pair` from `src/lib.rs`. -/
def parsePatternTypePair (fuel : Nat) (ts : List Tok) :
    PRes (Pat × Span × Ty) :=
  (parsePat fuel ts).andThen fun pat ts₁ =>
    (parsePunct ":" ts₁).andThen fun colonSp ts₂ =>
      (parseTy fuel ts₂).andThen fun ty ts₃ =>
        .ok (pat, colonSp, ty) ts₃

/-- Model of `parse_terminated(parse_pattern_type_pair)`: value `(, value)* ,?`
consuming the whole stream, trailing separator allowed. -/
def parseTerminatedPairs : Nat → List Tok → PRes (List (Pat × Span × Ty))
| 0, ts => .err "parser fuel exhausted" (headSpan ts) ts
| fuel + 1, ts =>
  match ts with
  | [] => .ok [] []
  | _ =>
    (parsePatternTypePair fuel ts).andThen fun pair rest =>
      match rest with
      | [] => .ok [pair] []
      | _ =>
        (parsePunct "," rest).andThen fun _ rest₁ =>
          (parseTerminatedPairs fuel rest₁).andThen fun pairs rest₂ =>
            .ok (pair :: pairs) rest₂

/-- Bounds after `:` in a type parameter or where predicate, separated
by `+`. -/
def parseBounds : Nat → List Tok → PRes (List Bound)
| 0, ts => .err "parser fuel exhausted" (headSpan ts) ts
| fuel + 1, ts =>
  let one : PRes Bound :=
    match ts with
    | .lifetime s sp :: rest => .ok (.lifetimeBound s sp) rest
    | _ => (parseTy fuel ts).andThen fun t rest => .ok (.traitBound t) rest
  one.andThen fun b rest =>
    match rest with
    | .punct "+" _ :: rest₁ =>
      (parseBounds fuel rest₁).andThen fun bs rest₂ => .ok (b :: bs) rest₂
    | _ => .ok [b] rest

/-- Lifetime bounds after `:` on a lifetime parameter, separated by
`+`. -/
def parseLifetimeBounds : Nat → List Tok → PRes (List (String × Span))
| 0, ts => .err "parser fuel exhausted" (headSpan ts) ts
| fuel + 1, ts =>
  match ts with
  | .lifetime s sp :: .punct "+" _ :: rest =>
    (parseLifetimeBounds fuel rest).andThen fun bs rest₁ =>
      .ok ((s, sp) :: bs) rest₁
  | .lifetime s sp :: rest => .ok [(s, sp)] rest
  | t :: _ => .err "expected lifetime" t.span ts
  | [] => .err "expected lifetime" 0 []

/-- One generic parameter: a lifetime or a type parameter, each with
optional bounds. -/
def parseGenericParam (fuel : Nat) (ts : List Tok) : PRes GenericParam :=
  match ts with
  | .lifetime s sp :: .punct ":" _ :: rest =>
    (parseLifetimeBounds fuel rest).andThen fun bs rest₁ =>
      .ok (.lifetimeParam s bs sp) rest₁
  | .lifetime s sp :: rest => .ok (.lifetimeParam s [] sp) rest
  | .ident s sp :: .punct ":" _ :: rest =>
    if rustKeywords.contains s then .err "expected generic parameter" sp ts
    else
      (parseBounds fuel rest).andThen fun bs rest₁ =>
        .ok (.typeParam s bs sp) rest₁
  | .ident s sp :: rest =>
    if rustKeywords.contains s then .err "expected generic parameter" sp ts
    else .ok (.typeParam s [] sp) rest
  | t :: _ => .err "expected generic parameter" t.span ts
  | [] => .err "expected generic parameter" 0 []

/-- The comma-separated generic parameters up to and including the
closing `>`. -/
def parseGenericsInner : Nat → List Tok → PRes (List GenericParam)
| 0, ts => .err "parser fuel exhausted" (headSpan ts) ts
| fuel + 1, ts =>
  match ts with
  | .punct ">" _ :: rest => .ok [] rest
  | _ =>
    (parseGenericParam fuel ts).andThen fun p rest =>
      match rest with
      | .punct "," _ :: rest₁ =>
        (parseGenericsInner fuel rest₁).andThen fun ps rest₂ =>
          .ok (p :: ps) rest₂
      | .punct ">" _ :: rest₁ => .ok [p] rest₁
      | tok :: _ => .err "expected closing angle bracket" tok.span rest
      | [] => .err "expected closing angle bracket" 0 []

/-- Model of `input.parse::<Generics>()`: `<` then the parameter list. -/
def parseGenerics (fuel : Nat) (ts : List Tok) : PRes Generics :=
  (parsePunct "<" ts).andThen fun _ rest =>
    (parseGenericsInner fuel rest).andThen fun ps rest₁ =>
      .ok ⟨ps⟩ rest₁

/-- One `syn::WherePredicate`: a lifetime predicate or `Type : bounds`. -/
def parseWherePred (fuel : Nat) (ts : List Tok) : PRes WherePred :=
  match ts with
  | .lifetime s sp :: .punct ":" _ :: rest =>
    (parseLifetimeBounds fuel rest).andThen fun bs rest₁ =>
      .ok (.lifetimePred s bs sp) rest₁
  | _ =>
    (parseTy fuel ts).andThen fun lhs rest =>
      (parsePunct ":" rest).andThen fun _ rest₁ =>
        (parseBounds fuel rest₁).andThen fun bs rest₂ =>
          .ok (.typePred lhs bs) rest₂

/-- Can the where-predicate loop stop here?  `syn` stops at end of
input, a brace group, `,`, `;`, `:` or `=`. -/
def wherePredStop : List Tok → Bool
| [] => true
| .group .brace _ _ :: _ => true
| .punct "," _ :: _ => true
| .punct ";" _ :: _ => true
| .punct ":" _ :: _ => true
| .punct "=" _ :: _ => true
| _ => false

/-- The predicate loop of `syn::WhereClause`'s parser. -/
def parseWherePreds : Nat → List Tok → PRes (List WherePred)
| 0, ts => .err "parser fuel exhausted" (headSpan ts) ts
| fuel + 1, ts =>
  if wherePredStop ts then .ok [] ts
  else
    (parseWherePred fuel ts).andThen fun p rest =>
      match rest with
      | .punct "," _ :: rest₁ =>
        (parseWherePreds fuel rest₁).andThen fun ps rest₂ =>
          .ok (p :: ps) rest₂
      | _ => .ok [p] rest

/-- Model of `input.parse::<WhereClause>()`: the `where` keyword then the
predicate loop. -/
def parseWhereClause (fuel : Nat) (ts : List Tok) : PRes WhereClause :=
  (parseKw "where" ts).andThen fun _ rest =>
    (parseWherePreds fuel rest).andThen fun ps rest₁ =>
      .ok ⟨ps⟩ rest₁

/-- Model of `input.parse::<ReturnType>()`: `-> Type` if an arrow follows,
`Default` otherwise (never fails without an arrow). -/
def parseReturnType (fuel : Nat) (ts : List Tok) : PRes ReturnType :=
  match ts with
  | .punct "->" sp :: rest =>
    (parseTy fuel rest).andThen fun t rest₁ => .ok (.ty sp t) rest₁
  | _ => .ok .default ts

/-- Model of `input.parse::<Block>()`, kept opaque: a brace group. -/
def parseBlock (ts : List Tok) : PRes Block :=
  match ts with
  | .group .brace inner sp :: rest => .ok ⟨sp, inner⟩ rest
  | t :: _ => .err "expected curly braces" t.span ts
  | [] => .err "expected curly braces" 0 []

/-- The leading-attribute loop of `ParsedFnDef::parse`: while a `#`
is next, a bracketed meta item must follow; its content is kept opaque
together with the bracket span. -/
def parseMetas : Nat → List Tok → PRes (List (List Tok × Span))
| 0, ts => .err "parser fuel exhausted" (headSpan ts) ts
| fuel + 1, ts =>
  match ts with
  | .punct "#" _ :: .group .bracket inner bsp :: rest =>
    (parseMetas fuel rest).andThen fun ms rest₁ =>
      .ok ((inner, bsp) :: ms) rest₁
  | .punct "#" _ :: t :: _ => .err "expected square brackets" t.span ts
  | [.punct "#" hsp] => .err "expected square brackets" hsp ts
  | _ => .ok [] ts

/-- Model of `ParsedFnDef::parse` from `src/lib.rs`: attributes, `fn`, optional
generics, the parenthesized parameter group (inside which the receiver
parse is attempted and, on failure, the stream continues where that
attempt stopped, as `.ok()` does on a `syn` stream), the remaining
parameter pairs (which must exhaust the group), the return type, an
optional where clause, and the body block. -/
def parseParsedFnDef (fuel : Nat) (ts : List Tok) : PRes ParsedFnDef :=
  (parseMetas fuel ts).andThen fun meta ts₁ =>
    (parseKw "fn" ts₁).andThen fun _ ts₂ =>
      let genStep : PRes (Option Generics) :=
        if peekAt ts₂ 0 (Tok.isPunctTok "<") then
          (parseGenerics fuel ts₂).andThen fun g r => .ok (some g) r
        else .ok none ts₂
      genStep.andThen fun gen ts₃ =>
        match ts₃ with
        | .group .paren inner parenSp :: ts₄ =>
          let (this, innerRest) :=
            match parseThisDef fuel inner with
            | .ok t r => (some t, r)
            | .err _ _ r => (none, r)
          (parseTerminatedPairs fuel innerRest).andThen fun params _ =>
            (parseReturnType fuel ts₄).andThen fun ret ts₅ =>
              let wStep : PRes (Option WhereClause) :=
                if peekAt ts₅ 0 (Tok.isIdentTok "where") then
                  (parseWhereClause fuel ts₅).andThen fun w r => .ok (some w) r
                else .ok none ts₅
              wStep.andThen fun w ts₆ =>
                (parseBlock ts₆).andThen fun code ts₇ =>
                  .ok ⟨meta, gen, parenSp, this, params, ret, w, code⟩ ts₇
        | t :: _ => .err "expected parentheses" t.span ts₃
        | [] => .err "expected parentheses" 0 []

/-- Model of `input.parse_terminated(ParsedFnDef::parse)` with `,` separators:
signature `(, signature)* ,?` consuming the whole stream. -/
def parseTerminatedFns : Nat → List Tok → PRes (List ParsedFnDef)
| 0, ts => .err "parser fuel exhausted" (headSpan ts) ts
| fuel + 1, ts =>
  match ts with
  | [] => .ok [] []
  | _ =>
    (parseParsedFnDef fuel ts).andThen fun f rest =>
      match rest with
      | [] => .ok [f] []
      | _ =>
        (parsePunct "," rest).andThen fun _ rest₁ =>
          (parseTerminatedFns fuel rest₁).andThen fun fs rest₂ =>
            .ok (f :: fs) rest₂

/-- Model of `input.parse::<Visibility>()`, restricted to the shapes the crate
meets: `pub`, `pub(...)`, or nothing; it never fails. -/
def parseVisibility (ts : List Tok) : Visibility × List Tok :=
  match ts with
  | .ident "pub" sp :: .group .paren inner _ :: rest =>
    (.restricted sp inner, rest)
  | .ident "pub" sp :: rest => (.pub sp, rest)
  | _ => (.inherited, ts)

/-- Model of `OverloadableGlobal` from `src/lib.rs` (the `_as_keyword` token is
dropped, as the source never reads it). -/
structure OverloadableGlobal where
  vis : Visibility
  name : Ident
  fns : List ParsedFnDef
deriving Repr

/-- Model of `OverloadableAssociated` from `src/lib.rs`. -/
structure OverloadableAssociated where
  vis : Visibility
  struct_name : Ident
  name : Ident
  fns : List ParsedFnDef
deriving Repr

/-- Model of `<OverloadableGlobal as Parse>::parse`: visibility, name, `as`,
then the terminated signature list. -/
def OverloadableGlobal.parse (fuel : Nat) (ts : List Tok) :
    PRes OverloadableGlobal :=
  let (vis, ts₁) := parseVisibility ts
  (parseIdent ts₁).andThen fun name ts₂ =>
    (parseKw "as" ts₂).andThen fun _ ts₃ =>
      (parseTerminatedFns fuel ts₃).andThen fun fns ts₄ =>
        .ok ⟨vis, name, fns⟩ ts₄

/-- Model of `<OverloadableAssociated as Parse>::parse`: visibility, owner name,
`::`, name, `as`, then the terminated signature list. -/
def OverloadableAssociated.parse (fuel : Nat) (ts : List Tok) :
    PRes OverloadableAssociated :=
  let (vis, ts₁) := parseVisibility ts
  (parseIdent ts₁).andThen fun struct_name ts₂ =>
    (parsePunct "::" ts₂).andThen fun _ ts₃ =>
      (parseIdent ts₃).andThen fun name ts₄ =>
        (parseKw "as" ts₄).andThen fun _ ts₅ =>
          (parseTerminatedFns fuel ts₅).andThen fun fns ts₆ =>
            .ok ⟨vis, struct_name, name, fns⟩ ts₆

/-- The marker-type declaration emitted by `overloadable`
(`quote_spanned! { name.span() => ... #vis struct #name; }`; the fixed
`doc(hidden)`, `allow(non_camel_case_types)`, `allow(dead_code)`
attributes are constant and not modelled as data). -/
structure StructDecl where
  vis : Visibility
  name : Ident
deriving Repr

/-- The full output of a successful `overloadable` expansion: the
marker type followed by the generated impl blocks. -/
structure Expanded where
  structDecl : StructDecl
  impls : List FnImpl
deriving Repr

/-- Parser fuel used by the entry points; ample for any input the
development evaluates. -/
def FUEL : Nat := 1000

/-- The `overloadable` entry point: parse an `OverloadableGlobal`
(a parse failure becomes the compile error `parse_macro_input!`
emits), then run `gen_fn_decls`; a generator error aborts the whole
expansion with no emitted tokens (the source unwraps it, panicking the
expansion). -/
def overloadable (ts : List Tok) : Except GenError Expanded :=
  match OverloadableGlobal.parse FUEL ts with
  | .err m sp _ => .error (m, sp)
  | .ok g _ =>
    match gen_fn_decls g.fns g.name with
    | .error e => .error e
    | .ok impls => .ok ⟨⟨g.vis, g.name⟩, impls⟩

/-- The `overloadable_member` entry point: parse an
`OverloadableAssociated`, then run `gen_trait_fn_decls`. -/
def overloadable_member (ts : List Tok) :
    Except GenError (List (TraitDecl × TraitImplBlock)) :=
  match OverloadableAssociated.parse FUEL ts with
  | .err m sp _ => .error (m, sp)
  | .ok a _ => .ok (gen_trait_fn_decls a.fns a.name a.struct_name a.vis)

/-! Concrete token streams and expected outputs used by the scenario
theorems and witnesses below.  Span numbers are arbitrary distinct
identifiers. -/

/-- Tokens of `my_func as fn(x: usize, y: &str) -> f32 { body }`. -/
def sAToks : List Tok :=
  [ .ident "my_func" 1, .ident "as" 2, .ident "fn" 3,
    .group .paren
      [ .ident "x" 4, .punct ":" 5, .ident "usize" 6, .punct "," 7,
        .ident "y" 8, .punct ":" 9, .punct "&" 10, .ident "str" 11 ] 12,
    .punct "->" 13, .ident "f32" 14,
    .group .brace [.ident "body" 15] 16 ]

/-- The expansion the scenario-A input produces. -/
def sAExpected : Expanded :=
  { structDecl := { vis := .inherited, name := ⟨"my_func", 1⟩ },
    impls :=
      [ { kind := .fnTrait, gen := none,
          argTypes := [Ty.path ["usize"] [] 6,
                       Ty.ref none false (Ty.path ["str"] [] 11) 10],
          forName := ⟨"my_func", 1⟩, w_clause := none, output := none,
          meta := [],
          methodArgPat := Pat.tuple 0 [Pat.ident "x" 4, Pat.ident "y" 8],
          body := .userBlock ⟨16, [Tok.ident "body" 15]⟩ },
        { kind := .fnOnceTrait, gen := none,
          argTypes := [Ty.path ["usize"] [] 6,
                       Ty.ref none false (Ty.path ["str"] [] 11) 10],
          forName := ⟨"my_func", 1⟩, w_clause := none,
          output := some (Ty.path ["f32"] [] 14), meta := [],
          methodArgPat := Pat.ident "x" 0, body := .delegateToCall },
        { kind := .fnMutTrait, gen := none,
          argTypes := [Ty.path ["usize"] [] 6,
                       Ty.ref none false (Ty.path ["str"] [] 11) 10],
          forName := ⟨"my_func", 1⟩, w_clause := none, output := none,
          meta := [],
          methodArgPat := Pat.ident "x" 0, body := .delegateToCall } ] }

/-- Tokens of `my_func as fn<T>() where [T: Debug] {}` — the constraint
clause written in the bracketed form of the specification's grammar. -/
def c5BracketToks : List Tok :=
  [ .ident "my_func" 1, .ident "as" 2, .ident "fn" 3,
    .punct "<" 4, .ident "T" 5, .punct ">" 6,
    .group .paren [] 7,
    .ident "where" 8,
    .group .bracket [.ident "T" 9, .punct ":" 10, .ident "Debug" 11] 12,
    .group .brace [] 13 ]

/-- Tokens of `my_func as fn<T>() where T: Debug {}` — the bare
constraint clause the crate's grammar accepts. -/
def c5BareToks : List Tok :=
  [ .ident "my_func" 1, .ident "as" 2, .ident "fn" 3,
    .punct "<" 4, .ident "T" 5, .punct ">" 6,
    .group .paren [] 7,
    .ident "where" 8, .ident "T" 9, .punct ":" 10, .ident "Debug" 11,
    .group .brace [] 13 ]

/-- The expansion the bare-constraint input produces: implementations
generic over `T` with the `Debug` bound, empty argument tuple, unit
return type spanned at the parameter parentheses. -/
def c5Expected : Expanded :=
  { structDecl := { vis := .inherited, name := ⟨"my_func", 1⟩ },
    impls :=
      [ { kind := .fnTrait, gen := some ⟨[.typeParam "T" [] 5]⟩,
          argTypes := [], forName := ⟨"my_func", 1⟩,
          w_clause := some ⟨[.typePred (Ty.path ["T"] [] 9)
            [.traitBound (Ty.path ["Debug"] [] 11)]]⟩,
          output := none, meta := [],
          methodArgPat := Pat.tuple 0 [], body := .userBlock ⟨13, []⟩ },
        { kind := .fnOnceTrait, gen := some ⟨[.typeParam "T" [] 5]⟩,
          argTypes := [], forName := ⟨"my_func", 1⟩,
          w_clause := some ⟨[.typePred (Ty.path ["T"] [] 9)
            [.traitBound (Ty.path ["Debug"] [] 11)]]⟩,
          output := some (Ty.tuple 7 []), meta := [],
          methodArgPat := Pat.ident "x" 0, body := .delegateToCall },
        { kind := .fnMutTrait, gen := some ⟨[.typeParam "T" [] 5]⟩,
          argTypes := [], forName := ⟨"my_func", 1⟩,
          w_clause := some ⟨[.typePred (Ty.path ["T"] [] 9)
            [.traitBound (Ty.path ["Debug"] [] 11)]]⟩,
          output := none, meta := [],
          methodArgPat := Pat.ident "x" 0, body := .delegateToCall } ] }

/-- Tokens of the free-form header `my_func as fn() {}`. -/
def c6FreeToks : List Tok :=
  [ .ident "my_func" 1, .ident "as" 2, .ident "fn" 3,
    .group .paren [] 4, .group .brace [] 5 ]

/-- Tokens of the member-form header `Foo :: my_func as fn(&self) {}`. -/
def c6MemberToks : List Tok :=
  [ .ident "Foo" 1, .punct "::" 2, .ident "my_func" 3, .ident "as" 4,
    .ident "fn" 5, .group .paren [.punct "&" 6, .ident "self" 7] 8,
    .group .brace [] 9 ]

/-- What the free-form entry parses `c6FreeToks` into. -/
def c6FreeParsed : OverloadableGlobal :=
  { vis := .inherited, name := ⟨"my_func", 1⟩,
    fns := [{ meta := [], gen := none, paren := 4, this := none,
              params := [], ret := .default, w_clause := none,
              code := ⟨5, []⟩ }] }

/-- What the member-form entry parses `c6MemberToks` into. -/
def c6MemberParsed : OverloadableAssociated :=
  { vis := .inherited, struct_name := ⟨"Foo", 1⟩, name := ⟨"my_func", 3⟩,
    fns := [{ meta := [], gen := none, paren := 8,
              this := some (.implicit (some 6) none 7 none),
              params := [], ret := .default, w_clause := none,
              code := ⟨9, []⟩ }] }

/-- A concrete signature carrying an implicit receiver descriptor, used
to witness receiver rejection. -/
def wfThis : ParsedFnDef :=
  { meta := [], gen := none, paren := 100,
    this := some (.implicit none none 101 none),
    params := [], ret := .default, w_clause := none, code := ⟨102, []⟩ }

/-- A concrete receiver-free signature with two annotations, two
parameters and no return arrow, used to witness the free-generator
theorems. -/
def wfPlain : ParsedFnDef :=
  { meta := [([Tok.ident "inline" 20], 21), ([Tok.ident "inline" 20], 21)],
    gen := none, paren := 22, this := none,
    params := [(Pat.ident "a" 23, 24, Ty.path ["u8"] [] 25),
               (Pat.ident "b" 26, 27, Ty.path ["u16"] [] 28)],
    ret := .default, w_clause := none, code := ⟨29, [Tok.ident "c" 30]⟩ }

/-- A concrete marker-type name for witnesses. -/
def wName : Ident := ⟨"f", 40⟩

/-- A concrete owner-type name for witnesses. -/
def wOwner : Ident := ⟨"S", 41⟩

/-! Helper lemmas: the decimal rendering of a natural number is
injective, hence the derived interface names are pairwise distinct. -/

theorem decDigits_eq_small {n : Nat} (h : n < 10) :
    decDigits n = [Nat.digitChar n] := by
  rw [decDigits]
  simp [h]

theorem decDigits_eq_large {n : Nat} (h : ¬ n < 10) :
    decDigits n = decDigits (n / 10) ++ [Nat.digitChar (n % 10)] := by
  rw [decDigits]
  simp [h]

theorem decDigits_ne_nil (n : Nat) : decDigits n ≠ [] := by
  by_cases h : n < 10
  · rw [decDigits_eq_small h]
    simp
  · rw [decDigits_eq_large h]
    simp

theorem digitChar_inj_fin :
    ∀ a b : Fin 10, Nat.digitChar a.val = Nat.digitChar b.val → a = b := by
  decide

theorem digitChar_inj {a b : Nat} (ha : a < 10) (hb : b < 10)
    (h : Nat.digitChar a = Nat.digitChar b) : a = b :=
  congrArg Fin.val (digitChar_inj_fin ⟨a, ha⟩ ⟨b, hb⟩ h)

theorem decDigits_inj : ∀ a b : Nat, decDigits a = decDigits b → a = b := by
  intro a
  induction a using Nat.strong_induction_on with
  | _ a ih =>
    intro b h
    by_cases ha : a < 10 <;> by_cases hb : b < 10
    · rw [decDigits_eq_small ha, decDigits_eq_small hb] at h
      injection h with h₁ _
      exact digitChar_inj ha hb h₁
    · rw [decDigits_eq_small ha, decDigits_eq_large hb] at h
      have hlen := congrArg List.length h
      simp at hlen
      exact absurd hlen (decDigits_ne_nil _)
    · rw [decDigits_eq_large ha, decDigits_eq_small hb] at h
      have hlen := congrArg List.length h
      simp at hlen
      exact absurd hlen (decDigits_ne_nil _)
    · rw [decDigits_eq_large ha, decDigits_eq_large hb] at h
      obtain ⟨h₁, h₂⟩ := List.append_inj' h (by simp)
      have hdiv : a / 10 = b / 10 :=
        ih (a / 10) (Nat.div_lt_self (by omega) (by omega)) (b / 10) h₁
      injection h₂ with h₃ _
      have hmod : a % 10 = b % 10 :=
        digitChar_inj (Nat.mod_lt _ (by omega)) (Nat.mod_lt _ (by omega)) h₃
      omega

theorem traitName_inj (s : String) {i j : Nat}
    (h : s ++ "Trait" ++ fmtNat i = s ++ "Trait" ++ fmtNat j) : i = j := by
  apply decDigits_inj
  have hd := congrArg String.data h
  simp only [String.data_append] at hd
  exact List.append_cancel_left hd

/-- C1: every signature list containing a receiver-bearing signature
makes the free-function generator return the receiver-rejection error
(anchored at a receiver-bearing signature's parameter parentheses) and
emit no code at all. -/
theorem C1_receiver_rejection (fns : List ParsedFnDef) (name : Ident)
    (f : ParsedFnDef) (hmem : f ∈ fns) (hthis : f.this.isSome = true) :
    ∃ g, g ∈ fns ∧ g.this.isSome = true ∧
      gen_fn_decls fns name =
        .error ("This declaration cannot contain a `self`-style parameter.",
                g.paren) := by
  induction fns with
  | nil => cases hmem
  | cons f₀ rest ih =>
    by_cases h₀ : f₀.this.isSome = true
    · exact ⟨f₀, List.mem_cons_self f₀ rest, h₀,
        by simp [gen_fn_decls, genOneFnDecl, h₀]⟩
    · rcases List.mem_cons.mp hmem with heq | hmem'
      · exact absurd (heq ▸ hthis) h₀
      · rcases ih hmem' with ⟨g, hg, hgt, herr⟩
        exact ⟨g, List.mem_cons_of_mem _ hg, hgt,
          by simp [gen_fn_decls, genOneFnDecl, h₀, herr]⟩

/-- C1 witness: the concrete one-signature list whose signature carries
an implicit receiver is rejected with the receiver error. -/
theorem C1_receiver_rejection_witness :
    ∃ g, g ∈ [wfThis] ∧ g.this.isSome = true ∧
      gen_fn_decls [wfThis] wName =
        .error ("This declaration cannot contain a `self`-style parameter.",
                g.paren) :=
  C1_receiver_rejection [wfThis] wName wfThis (List.mem_singleton.mpr rfl) rfl

/-- C2: for every signature, in both generators, a signature without a
return arrow gets the empty tuple type spanned at the parameter
parentheses as its generated return type, and a signature with an arrow
gets exactly the declared type.  The member-generator conclusions hold
unconditionally (receiver-bearing signatures included); in the
free-function output — which exists only for receiver-free signatures —
the return type appears as the `type Output` of the `FnOnce` block. -/
theorem C2_return_type_defaulting (f : ParsedFnDef) (name sn : Ident)
    (vis : Visibility) (i : Nat) :
    (f.ret = ReturnType.default →
      (genOneTraitDecl name sn vis i f).1.ret = Ty.tuple f.paren [] ∧
      (genOneTraitDecl name sn vis i f).2.ret = Ty.tuple f.paren [] ∧
      (f.this = none →
        (genOneFnDecl name f).map (List.map FnImpl.output) =
          .ok [none, some (Ty.tuple f.paren []), none])) ∧
    (∀ sp t, f.ret = ReturnType.ty sp t →
      (genOneTraitDecl name sn vis i f).1.ret = t ∧
      (genOneTraitDecl name sn vis i f).2.ret = t ∧
      (f.this = none →
        (genOneFnDecl name f).map (List.map FnImpl.output) =
          .ok [none, some t, none])) := by
  constructor
  · intro hr
    refine ⟨?_, ?_, fun h => ?_⟩
    · simp [genOneTraitDecl, hr]
    · simp [genOneTraitDecl, hr]
    · simp [genOneFnDecl, Except.map, h, hr]
  · intro sp t hr
    refine ⟨?_, ?_, fun h => ?_⟩
    · simp [genOneTraitDecl, hr]
    · simp [genOneTraitDecl, hr]
    · simp [genOneFnDecl, Except.map, h, hr]

/-- C2 witness: return-type defaulting evaluated on the concrete
receiver-free signature (both generators) and on the concrete
receiver-bearing signature (member generator), both of which lack a
return arrow. -/
theorem C2_return_type_defaulting_witness :
    ((genOneTraitDecl wName wOwner .inherited 0 wfPlain).1.ret =
       Ty.tuple 22 [] ∧
     (genOneTraitDecl wName wOwner .inherited 0 wfPlain).2.ret =
       Ty.tuple 22 [] ∧
     (genOneFnDecl wName wfPlain).map (List.map FnImpl.output) =
       .ok [none, some (Ty.tuple 22 []), none]) ∧
    ((genOneTraitDecl wName wOwner .inherited 0 wfThis).1.ret =
       Ty.tuple 100 [] ∧
     (genOneTraitDecl wName wOwner .inherited 0 wfThis).2.ret =
       Ty.tuple 100 []) :=
  ⟨⟨((C2_return_type_defaulting wfPlain wName wOwner .inherited 0).1 rfl).1,
    ((C2_return_type_defaulting wfPlain wName wOwner .inherited 0).1 rfl).2.1,
    ((C2_return_type_defaulting wfPlain wName wOwner .inherited 0).1 rfl).2.2
      rfl⟩,
   ⟨((C2_return_type_defaulting wfThis wName wOwner .inherited 0).1 rfl).1,
    ((C2_return_type_defaulting wfThis wName wOwner .inherited 0).1 rfl).2.1⟩⟩

/-- C3: a member-form invocation with `N` signatures emits exactly `N`
interface declarations, the `i`-th named by the owner name, the fixed
infix `Trait`, and the decimal rendering of the zero-based index `i`,
and those names are pairwise distinct. -/
theorem C3_interface_uniqueness (fns : List ParsedFnDef) (name sn : Ident)
    (vis : Visibility) :
    (gen_trait_fn_decls fns name sn vis).length = fns.length ∧
    (gen_trait_fn_decls fns name sn vis).map (fun d => d.1.traitName.name) =
      (List.range fns.length).map (fun i => sn.name ++ "Trait" ++ fmtNat i) ∧
    ((gen_trait_fn_decls fns name sn vis).map
      (fun d => d.1.traitName.name)).Pairwise (· ≠ ·) := by
  have hmap : (gen_trait_fn_decls fns name sn vis).map
      (fun d => d.1.traitName.name) =
      (List.range fns.length).map (fun i => sn.name ++ "Trait" ++ fmtNat i) := by
    rw [← List.enum_map_fst fns, List.map_map]
    unfold gen_trait_fn_decls
    rw [List.map_map]
    rfl
  refine ⟨?_, hmap, ?_⟩
  · simp [gen_trait_fn_decls]
  · rw [hmap]
    refine List.Pairwise.map _ ?_ (List.pairwise_lt_range fns.length)
    intro a b hab hcontra
    exact absurd (traitName_inj sn.name hcontra) (Nat.ne_of_lt hab)

/-- C4: the emitted interface carries the `Sized` requirement exactly
when the receiver descriptor is present, implicit, and has no leading
reference marker; explicit-typed receivers, referenced receivers and
receiver-less signatures get none. -/
theorem C4_sized_requirement (f : ParsedFnDef) (name sn : Ident)
    (vis : Visibility) (i : Nat) :
    (genOneTraitDecl name sn vis i f).1.sizedRequirement = true ↔
      ∃ mt selfSp c, f.this = some (ThisDef.implicit none mt selfSp c) := by
  have hrw : (genOneTraitDecl name sn vis i f).1.sizedRequirement =
      ThisDef.is_sized_dependent f.this := rfl
  rw [hrw]
  rcases hthis : f.this with _ | td
  · simp [ThisDef.is_sized_dependent]
  · cases td with
    | explicit mt s c ty cm => simp [ThisDef.is_sized_dependent]
    | implicit amp mt s cm =>
      cases amp with
      | none =>
        simp only [ThisDef.is_sized_dependent]
        exact ⟨fun _ => ⟨mt, s, cm, rfl⟩, fun _ => trivial⟩
      | some a => simp [ThisDef.is_sized_dependent]

/-- C5 counterexample: on the input `my_func as fn<T>() where [T: Debug] {}`
— the constraint clause written in the bracketed form — the expansion
does not succeed: the where-clause parse fails inside the bracket
(span 10, the `:` token) and the whole expansion is an error. -/
theorem C5_counterexample :
    overloadable c5BracketToks = .error ("unexpected token in brackets", 10) :=
  rfl

/-- C5 (amended): with the bare constraint clause the grammar actually
accepts, `my_func as fn<T>() where T: Debug {}` expands successfully to
implementations generic over `T` bounded by `Debug`, with empty
parameter type tuple and unit return type. -/
theorem C5_bare_constraint_expansion :
    overloadable c5BareToks = .ok c5Expected :=
  rfl

/-- C6 counterexample: neither grammar parser recognizes both header
shapes — the free-form parser fails on a member-form stream (at the
`::` token, where it wants `as`), and the member-form parser fails on a
free-form stream (at the `as` token, where it wants `::`). -/
theorem C6_counterexample :
    OverloadableGlobal.parse FUEL c6MemberToks =
      PRes.err "expected keyword as" 2 (c6MemberToks.drop 1) ∧
    OverloadableAssociated.parse FUEL c6FreeToks =
      PRes.err "expected token ::" 2 (c6FreeToks.drop 1) :=
  ⟨rfl, rfl⟩

/-- C6 (amended): the two header shapes are recognized by two separate
entry points, not by lookahead: the free-form parser accepts its own
shape and rejects any `Name :: …` stream with a parse error at the
`::` span, while the member-form parser accepts its own shape and
rejects any `Name as …` stream with a parse error at the `as` span. -/
theorem C6_header_shapes (sp sp2 : Span) (rest : List Tok) :
    OverloadableGlobal.parse FUEL
        (Tok.ident "f" sp :: Tok.punct "::" sp2 :: rest) =
      PRes.err "expected keyword as" sp2 (Tok.punct "::" sp2 :: rest) ∧
    OverloadableAssociated.parse FUEL
        (Tok.ident "f" sp :: Tok.ident "as" sp2 :: rest) =
      PRes.err "expected token ::" sp2 (Tok.ident "as" sp2 :: rest) ∧
    OverloadableGlobal.parse FUEL c6FreeToks = PRes.ok c6FreeParsed [] ∧
    OverloadableAssociated.parse FUEL c6MemberToks = PRes.ok c6MemberParsed [] :=
  ⟨rfl, rfl, rfl, rfl⟩

/-- C7: the three generated invocation implementations all take the
argument tuple whose component types are the parsed parameters'
declared types in parse order (so the tuple arity equals the number of
parsed pairs), and the concrete scenario
`my_func as fn(x: usize, y: &str) -> f32 { body }` expands to the marker
type plus three implementations over `(usize, &str)` returning `f32`. -/
theorem C7_arity_preservation (f : ParsedFnDef) (name : Ident)
    (h : f.this = none) :
    ((genOneFnDecl name f).map (List.map FnImpl.argTypes) =
      .ok [f.params.map (fun p => p.2.2), f.params.map (fun p => p.2.2),
           f.params.map (fun p => p.2.2)] ∧
     (f.params.map (fun p => p.2.2)).length = f.params.length) ∧
    overloadable sAToks = .ok sAExpected := by
  refine ⟨⟨?_, by simp⟩, rfl⟩
  simp [genOneFnDecl, Except.map, h]

/-- C7 witness: arity preservation evaluated on the concrete
receiver-free two-parameter signature. -/
theorem C7_arity_preservation_witness :
    ((genOneFnDecl wName wfPlain).map (List.map FnImpl.argTypes) =
      .ok [wfPlain.params.map (fun p => p.2.2),
           wfPlain.params.map (fun p => p.2.2),
           wfPlain.params.map (fun p => p.2.2)] ∧
     (wfPlain.params.map (fun p => p.2.2)).length = wfPlain.params.length) ∧
    overloadable sAToks = .ok sAExpected :=
  C7_arity_preservation wfPlain wName rfl

/-- C8: the full annotation list of a free-form signature is re-emitted
identically (same entries, same order, same bracket spans, no merging
or deduplication) on each of the three generated methods. -/
theorem C8_annotation_reemission (f : ParsedFnDef) (name : Ident)
    (h : f.this = none) :
    (genOneFnDecl name f).map (List.map FnImpl.meta) =
      .ok [f.meta.map (fun mb => EmittedAttr.mk mb.1 mb.2),
           f.meta.map (fun mb => EmittedAttr.mk mb.1 mb.2),
           f.meta.map (fun mb => EmittedAttr.mk mb.1 mb.2)] := by
  simp [genOneFnDecl, Except.map, h]

/-- C8 witness: annotation re-emission evaluated on the concrete
signature carrying two (identical) annotations, which appear twice on
each generated method. -/
theorem C8_annotation_reemission_witness :
    (genOneFnDecl wName wfPlain).map (List.map FnImpl.meta) =
      .ok [wfPlain.meta.map (fun mb => EmittedAttr.mk mb.1 mb.2),
           wfPlain.meta.map (fun mb => EmittedAttr.mk mb.1 mb.2),
           wfPlain.meta.map (fun mb => EmittedAttr.mk mb.1 mb.2)] :=
  C8_annotation_reemission wfPlain wName rfl

/-- C9: in the free-function output the `call` method holds the user's
block while `call_once` and `call_mut` delegate to `call`, so under any
interpretation of blocks as functions the three generated invocation
forms compute the same function of the argument tuple. -/
theorem C9_delegation_equivalence (f : ParsedFnDef) (name : Ident)
    (h : f.this = none) :
    (genOneFnDecl name f).map (List.map FnImpl.body) =
      .ok [MethodBody.userBlock f.code, MethodBody.delegateToCall,
           MethodBody.delegateToCall] ∧
    ∀ (α β : Type) (interp : Block → α → β) (x : α),
      MethodBody.denote interp f.code (MethodBody.userBlock f.code) x =
        interp f.code x ∧
      MethodBody.denote interp f.code MethodBody.delegateToCall x =
        interp f.code x := by
  refine ⟨by simp [genOneFnDecl, Except.map, h], ?_⟩
  intro α β interp x
  exact ⟨rfl, rfl⟩

/-- C9 witness: delegation evaluated on the concrete receiver-free
signature. -/
theorem C9_delegation_equivalence_witness :
    (genOneFnDecl wName wfPlain).map (List.map FnImpl.body) =
      .ok [MethodBody.userBlock wfPlain.code, MethodBody.delegateToCall,
           MethodBody.delegateToCall] ∧
    ∀ (α β : Type) (interp : Block → α → β) (x : α),
      MethodBody.denote interp wfPlain.code
          (MethodBody.userBlock wfPlain.code) x = interp wfPlain.code x ∧
      MethodBody.denote interp wfPlain.code MethodBody.delegateToCall x =
        interp wfPlain.code x :=
  C9_delegation_equivalence wfPlain wName rfl

/-- C10: the emitted interface names its method parameters positionally
`_0 … _{n-1}` (one per parsed pair, in order, each spanned at the user
pattern), the implementation uses the user's original patterns, and both
list the same declared parameter types in the same order. -/
theorem C10_positional_params (f : ParsedFnDef) (name sn : Ident)
    (vis : Visibility) (i : Nat) :
    (genOneTraitDecl name sn vis i f).1.params.map Prod.fst =
      f.params.enum.map (fun kp => Pat.ident ("_" ++ fmtNat kp.1) kp.2.1.span) ∧
    (genOneTraitDecl name sn vis i f).2.params.map Prod.fst =
      f.params.map (fun p => p.1) ∧
    (genOneTraitDecl name sn vis i f).1.params.map Prod.snd =
      f.params.map (fun p => p.2.2) ∧
    (genOneTraitDecl name sn vis i f).2.params.map Prod.snd =
      f.params.map (fun p => p.2.2) ∧
    (genOneTraitDecl name sn vis i f).1.params.length = f.params.length := by
  refine ⟨?_, ?_, ?_, ?_, ?_⟩
  · simp [genOneTraitDecl, List.map_map]
  · simp [genOneTraitDecl, List.map_map]
  · show (f.params.enum.map fun kp =>
        ((Pat.ident ("_" ++ fmtNat kp.1) kp.2.1.span : Pat), kp.2.2.2)).map
          Prod.snd = _
    rw [List.map_map]
    have hco : (Prod.snd ∘ fun kp : Nat × (Pat × Span × Ty) =>
        ((Pat.ident ("_" ++ fmtNat kp.1) kp.2.1.span : Pat), kp.2.2.2)) =
        (fun p : Pat × Span × Ty => p.2.2) ∘ Prod.snd := rfl
    rw [hco, ← List.map_map, List.enum_map_snd]
  · simp [genOneTraitDecl, List.map_map]
  · simp [genOneTraitDecl]

end Overload
